import Mathlib

/-!
Verification of the request-execution core of the agentic flagship API:
URL safety validation (SSRF guard), the TTL fetch cache and core fetch,
the sliding-window rate limiter, the breadth-first crawler, the browser
tool error classification, browser teardown, output truncation, and the
streaming relay.  Each definition is a shallow embedding of the
corresponding Python function in `app/`; I/O effects (DNS resolution,
HTTP requests, wall-clock time, playwright calls) are passed in as
explicit environments, and timestamps are rationals.
-/

namespace AgenticApi

/-! ## IP addresses and the SSRF block list (`app/security.py`) -/

/-- A resolved address: IPv4 as four octets, IPv6 as eight 16-bit segments. -/
inductive IP where
  | v4 (a b c d : Nat)
  | v6 (segs : List Nat)
deriving DecidableEq, Repr

/-- Membership of an address in `_BLOCKED_NETWORKS`:
127.0.0.0/8, 10.0.0.0/8, 172.16.0.0/12, 192.168.0.0/16, 169.254.0.0/16, ::1/128. -/
def ipBlocked : IP → Bool
  | .v4 a b _ _ =>
      a == 127 || a == 10 || (a == 172 && decide (16 ≤ b) && decide (b ≤ 31)) ||
      (a == 192 && b == 168) || (a == 169 && b == 254)
  | .v6 segs => segs == [0, 0, 0, 0, 0, 0, 0, 1]

/-- Rendering of an address as `str(ip)` renders the blocked ones
(dotted quad for IPv4; the only blocked IPv6 address prints as `::1`). -/
def ipToString : IP → String
  | .v4 a b c d => toString a ++ "." ++ toString b ++ "." ++ toString c ++ "." ++ toString d
  | .v6 segs => if segs == [0, 0, 0, 0, 0, 0, 0, 1] then "::1"
                else String.intercalate ":" (segs.map toString)

/-! ## URL parsing (the slice of `urllib.parse` the code uses) -/

/-- The five components of `urlsplit` (params are kept inside `path`,
which does not affect any code path modelled here). -/
structure URL where
  scheme : String
  netloc : String
  path : String
  query : String
  fragment : String
deriving DecidableEq, Repr

/-- Split a character list at the first occurrence of `sep`;
`none` when `sep` does not occur. -/
def splitFirst (sep : Char) (cs : List Char) : Option (List Char × List Char) :=
  match cs.span (fun c => c != sep) with
  | (_, []) => none
  | (pre, _ :: post) => some (pre, post)

/-- Valid characters of a URL scheme after the first (letters, digits, `+`, `-`, `.`). -/
def isSchemeChar (c : Char) : Bool :=
  c.isAlpha || c.isDigit || c == '+' || c == '-' || c == '.'

/-- CPython `urlsplit`: extract the scheme when a `:` is preceded by a
nonempty run of scheme characters starting with a letter. Returns
(lowercased scheme, remainder). -/
def splitScheme (cs : List Char) : String × List Char :=
  match splitFirst ':' cs with
  | none => ("", cs)
  | some (pre, post) =>
      if pre ≠ [] ∧ pre.headI.isAlpha ∧ pre.all isSchemeChar then
        (String.mk (pre.map Char.toLower), post)
      else ("", cs)

/-- CPython `urlsplit`: when the remainder starts with `//`, the netloc runs
up to the first `/`, `?` or `#`. Returns (netloc, remainder). -/
def splitNetloc (cs : List Char) : List Char × List Char :=
  match cs with
  | '/' :: '/' :: rest =>
      rest.span (fun c => c != '/' && c != '?' && c != '#')
  | _ => ([], cs)

/-- A WHATWG "C0 control or space" character: code points U+0000–U+0020. -/
def isC0ControlOrSpace (c : Char) : Bool := c.toNat ≤ 32

/-- CPython `urlsplit`'s input sanitization: strip *leading* C0-control and
space characters (trailing ones are preserved), then remove every tab,
carriage return and line feed. -/
def sanitizeURL (s : String) : List Char :=
  (s.toList.dropWhile isC0ControlOrSpace).filter
    (fun c => c != '\t' && c != '\r' && c != '\n')

/-- The slice of `urllib.parse.urlparse` used by the code: sanitize, then
scheme, netloc, path (with params), query, fragment.  This is the total
part of the parser; the `ValueError` CPython raises on mismatched netloc
brackets is `urlparseE` below. -/
def urlparse (s : String) : URL :=
  let (scheme, rest) := splitScheme (sanitizeURL s)
  let (netloc, rest) := splitNetloc rest
  let (rest, fragment) := match splitFirst '#' rest with
    | none => (rest, ([] : List Char))
    | some (pre, post) => (pre, post)
  let (path, query) := match splitFirst '?' rest with
    | none => (rest, ([] : List Char))
    | some (pre, post) => (pre, post)
  ⟨scheme, String.mk netloc, String.mk path, String.mk query, String.mk fragment⟩

/-- `urlparse` with CPython's exception path: right after splitting the
netloc, a `[` without `]` (or `]` without `[`) raises
`ValueError("Invalid IPv6 URL")`; errors carry the exception's message.
This follows the parser of Python 3.10, the code's minimum supported
version (3.11 added a further validation of the address between balanced
brackets on top, not modelled here). -/
def urlparseE (s : String) : Except String URL :=
  let u := urlparse s
  if (u.netloc.toList.contains '[' != u.netloc.toList.contains ']') then
    Except.error "Invalid IPv6 URL"
  else Except.ok u

/-- The part of a netloc after the last `@` (CPython `netloc.rpartition`). -/
def afterLastAt (cs : List Char) : List Char :=
  ((cs.reverse.span (fun c => c != '@')).1).reverse

/-- CPython's `.hostname`: strip userinfo and port from the netloc,
handle `[...]` bracketed hosts, lowercase. Empty string stands for `None`. -/
def URL.hostname (u : URL) : String :=
  let hostinfo := afterLastAt u.netloc.toList
  let host := match splitFirst '[' hostinfo with
    | some (_, bracketed) => (bracketed.span (fun c => c != ']')).1
    | none => (hostinfo.span (fun c => c != ':')).1
  String.mk (host.map Char.toLower)

/-! ## `validate_url` (`app/security.py`) -/

/-- `validate_url(url)`: an error string when the URL is unsafe, else `none`.
`resolve` is the DNS environment (`socket.getaddrinfo`): `none` models a
`gaierror`, `some ips` the resolved address list in order. -/
def validate_url (resolve : String → Option (List IP)) (url : String) : Option String :=
  let parsed := urlparse url
  if parsed.scheme ≠ "http" ∧ parsed.scheme ≠ "https" then
    some ("Blocked: URL scheme '" ++ parsed.scheme ++ "' is not allowed. Use http or https.")
  else if parsed.hostname = "" then
    some "Blocked: could not parse hostname from URL."
  else
    match resolve parsed.hostname with
    | none => some ("Blocked: could not resolve hostname '" ++ parsed.hostname ++ "'.")
    | some ips =>
        match ips.find? ipBlocked with
        | some ip => some ("Blocked: URL resolves to a private/internal address (" ++ ipToString ip ++ ").")
        | none => none

/-! ## Fetch cache and core fetch (`app/tools.py`) -/

/-- `_MAX_CHARS`. -/
def MAX_CHARS : Nat := 10000

/-- `_CACHE_TTL` (seconds). -/
def CACHE_TTL : ℚ := 300

/-- The in-memory URL response cache `_cache`: an association list
`url ↦ (html, insertion timestamp)` standing for the Python dict
(first occurrence is the binding; insertion keeps keys unique). -/
abbrev Cache := List (String × String × ℚ)

/-- Dict lookup `_cache.get(url)`. -/
def cacheLookup : Cache → String → Option (String × ℚ)
  | [], _ => none
  | (k, v) :: rest, url => if k = url then some v else cacheLookup rest url

/-- Dict deletion `del _cache[url]`. -/
def cacheErase : Cache → String → Cache
  | [], _ => []
  | (k, v) :: rest, url =>
      if k = url then cacheErase rest url else (k, v) :: cacheErase rest url

/-- Dict assignment `_cache[url] = (html, now)` (unconditional overwrite). -/
def cacheSet (c : Cache) (url html : String) (now : ℚ) : Cache :=
  cacheErase c url ++ [(url, html, now)]

/-- `_cache_get(url)`: the cached body when present and not older than the
TTL; a stale entry is deleted (lazy eviction).  Returns the result and the
cache after the lookup's side effect. -/
def cache_get (c : Cache) (now : ℚ) (url : String) : Option String × Cache :=
  match cacheLookup c url with
  | none => (none, c)
  | some (html, ts) =>
      if CACHE_TTL < now - ts then (none, cacheErase c url) else (some html, c)

/-- Outcome of the one HTTP GET `_fetch` may issue (the `httpx` environment):
success body, an `HTTPStatusError` after `raise_for_status`, or a
`RequestError`. -/
inductive NetResult where
  | ok (body : String)
  | statusErr (code : Nat) (reason : String)
  | reqErr (msg : String)
deriving DecidableEq, Repr

/-- The full result of one `_fetch` call: the `(html, error)` pair it
returns, the cache afterwards, and whether a network request was issued. -/
structure FetchOut where
  html : Option String
  error : Option String
  cache : Cache
  networkCalled : Bool
deriving DecidableEq, Repr

/-- `_fetch(url)`: SSRF validation first, then cache lookup, then at most
one network GET whose successful body is stored in the cache. -/
def _fetch (resolve : String → Option (List IP)) (net : String → NetResult)
    (now : ℚ) (c : Cache) (url : String) : FetchOut :=
  match validate_url resolve url with
  | some err => ⟨none, some err, c, false⟩
  | none =>
      match cache_get c now url with
      | (some html, c1) => ⟨some html, none, c1, false⟩
      | (none, c1) =>
          match net url with
          | .ok body => ⟨some body, none, cacheSet c1 url body now, true⟩
          | .statusErr code reason =>
              ⟨none, some ("HTTP error " ++ toString code ++ " fetching " ++ url ++ ": " ++ reason), c1, true⟩
          | .reqErr msg =>
              ⟨none, some ("Request error fetching " ++ url ++ ": " ++ msg), c1, true⟩

/-- `validate_url` with the parser's exception path: the `ValueError` that
`urlparse(url)` raises on mismatched netloc brackets propagates out of
`validate_url` (the function catches only `socket.gaierror`); on a
successful parse the checks proceed as in `validate_url`. -/
def validate_urlE (resolve : String → Option (List IP)) (url : String) :
    Except String (Option String) :=
  match urlparseE url with
  | .error e => .error e
  | .ok _ => .ok (validate_url resolve url)

/-- `_fetch` with the exception path: a parser `ValueError` propagates out
of `_fetch` uncaught (its `except` clauses catch only `httpx` errors), so
it escapes before the cache is read and before any network request. -/
def _fetchE (resolve : String → Option (List IP)) (net : String → NetResult)
    (now : ℚ) (c : Cache) (url : String) : Except String FetchOut :=
  match validate_urlE resolve url with
  | .error e => .error e
  | .ok _ => .ok (_fetch resolve net now c url)

/-! ## C1: SSRF validation precedes cache and network -/

/-- Any unsafe URL makes `validate_url` return an error starting with `Blocked`. -/
lemma validate_url_blocked (resolve : String → Option (List IP)) (url : String)
    (h : ((urlparse url).scheme ≠ "http" ∧ (urlparse url).scheme ≠ "https")
       ∨ (urlparse url).hostname = ""
       ∨ resolve (urlparse url).hostname = none
       ∨ ∃ ips, resolve (urlparse url).hostname = some ips ∧ ∃ ip ∈ ips, ipBlocked ip = true) :
    ∃ e r, validate_url resolve url = some e ∧ e = "Blocked" ++ r := by
  unfold validate_url
  by_cases h1 : (urlparse url).scheme ≠ "http" ∧ (urlparse url).scheme ≠ "https"
  · refine ⟨_, ": URL scheme '" ++ (urlparse url).scheme ++ "' is not allowed. Use http or https.",
      by rw [if_pos h1], ?_⟩
    have hb : "Blocked: URL scheme '" = "Blocked" ++ ": URL scheme '" := by decide
    simp only [hb, String.append_assoc]
  · rw [if_neg h1]
    by_cases h2 : (urlparse url).hostname = ""
    · exact ⟨_, ": could not parse hostname from URL.", by rw [if_pos h2], by decide⟩
    · rw [if_neg h2]
      cases hres : resolve (urlparse url).hostname with
      | none =>
          refine ⟨_, ": could not resolve hostname '" ++ (urlparse url).hostname ++ "'.", rfl, ?_⟩
          have hb : "Blocked: could not resolve hostname '" =
              "Blocked" ++ ": could not resolve hostname '" := by decide
          simp only [hb, String.append_assoc]
      | some ips =>
          rcases h with h | h | h | ⟨ips', hips', ip, hmem, hblocked⟩
          · exact absurd h h1
          · exact absurd h h2
          · exact absurd (hres ▸ h) (by simp)
          · rw [hres] at hips'
            obtain rfl : ips = ips' := by injection hips'
            obtain ⟨ip0, hfind⟩ : ∃ ip0, List.find? ipBlocked ips = some ip0 :=
              Option.isSome_iff_exists.mp (List.find?_isSome.mpr ⟨ip, hmem, hblocked⟩)
            refine ⟨"Blocked: URL resolves to a private/internal address (" ++ ipToString ip0 ++ ").",
              ": URL resolves to a private/internal address (" ++ ipToString ip0 ++ ").",
              by simp [hfind], ?_⟩
            have hb : "Blocked: URL resolves to a private/internal address (" =
                "Blocked" ++ ": URL resolves to a private/internal address (" := by decide
            simp only [hb, String.append_assoc]

/-- C1 (counterexample): for `http://[::1` — a URL whose hostname does not
parse — `_fetch` does **not** return a blocked error: `urlparse` raises
`ValueError("Invalid IPv6 URL")` and the exception propagates out of
`_fetch`, even though the hostname a total reading would extract resolves
to the loopback address. -/
theorem c1_counterexample :
    _fetchE (fun _ => some [IP.v6 [0, 0, 0, 0, 0, 0, 0, 1]])
        (fun _ => NetResult.ok "body") 0 [] "http://[::1"
      = Except.error "Invalid IPv6 URL" ∧
    ∀ (e : String),
      _fetchE (fun _ => some [IP.v6 [0, 0, 0, 0, 0, 0, 0, 1]])
          (fun _ => NetResult.ok "body") 0 [] "http://[::1"
        ≠ Except.ok ⟨none, some e, [], false⟩ := by
  have heq : _fetchE (fun _ => some [IP.v6 [0, 0, 0, 0, 0, 0, 0, 1]])
      (fun _ => NetResult.ok "body") 0 [] "http://[::1"
      = Except.error "Invalid IPv6 URL" := rfl
  exact ⟨heq, fun e h => by simp [heq] at h⟩

/-- C1 amended: for every URL that `urlparse` parses without raising, if
its hostname resolves to at least one address in a blocked
private/loopback/link-local range, or its scheme is not http(s), or its
hostname is empty or unresolvable, then `_fetch` returns a blocked error,
leaves the cache untouched, and issues no network call — for **every**
cache state, so validation runs before the cache lookup and a cached entry
never bypasses it.  When `urlparse` raises (mismatched netloc brackets),
the `ValueError` propagates out of `_fetch` before the cache is read, for
every network environment and every cache state — still no fetch and no
cache bypass, but an exception rather than a returned blocked error. -/
theorem c1_fetch_blocks_parsed_urls_before_cache
    (resolve : String → Option (List IP)) (net : String → NetResult)
    (now : ℚ) (c : Cache) (url : String) :
    ((((urlparse url).scheme ≠ "http" ∧ (urlparse url).scheme ≠ "https")
       ∨ (urlparse url).hostname = ""
       ∨ resolve (urlparse url).hostname = none
       ∨ ∃ ips, resolve (urlparse url).hostname = some ips ∧
           ∃ ip ∈ ips, ipBlocked ip = true) →
      (∃ u, urlparseE url = Except.ok u) →
      ∃ e, _fetchE resolve net now c url = Except.ok ⟨none, some e, c, false⟩ ∧
        ∃ r, e = "Blocked" ++ r)
    ∧ (∀ msg, urlparseE url = Except.error msg →
        ∀ (net2 : String → NetResult) (c2 : Cache),
          _fetchE resolve net2 now c2 url = Except.error msg) := by
  constructor
  · intro hblock hparse
    obtain ⟨u, hu⟩ := hparse
    obtain ⟨e, r, hv, he⟩ := validate_url_blocked resolve url hblock
    have hfetch : _fetch resolve net now c url = ⟨none, some e, c, false⟩ := by
      simp [_fetch, hv]
    refine ⟨e, ?_, r, he⟩
    unfold _fetchE validate_urlE
    rw [hu]
    dsimp only
    rw [hfetch]
  · intro msg hmsg net2 c2
    unfold _fetchE validate_urlE
    rw [hmsg]

/-- Witness for C1: `http://intranet.local/x` resolving to 10.0.0.5 is
blocked with no network call even though the cache holds an entry for it,
and the exception for `http://[::1` propagates for any cache and network
environment. -/
theorem c1_witness :
    (∃ e, _fetchE (fun h => if h = "intranet.local" then some [IP.v4 10 0 0 5] else none)
        (fun _ => NetResult.ok "server body") 0
        [("http://intranet.local/x", "cached body", 0)] "http://intranet.local/x"
      = Except.ok ⟨none, some e, [("http://intranet.local/x", "cached body", 0)], false⟩ ∧
      ∃ r, e = "Blocked" ++ r) ∧
    _fetchE (fun h => if h = "intranet.local" then some [IP.v4 10 0 0 5] else none)
        (fun _ => NetResult.ok "server body") 0
        [("http://intranet.local/x", "cached body", 0)] "http://[::1"
      = Except.error "Invalid IPv6 URL" :=
  ⟨(c1_fetch_blocks_parsed_urls_before_cache
      (fun h => if h = "intranet.local" then some [IP.v4 10 0 0 5] else none)
      (fun _ => NetResult.ok "server body") 0
      [("http://intranet.local/x", "cached body", 0)] "http://intranet.local/x").1
    (Or.inr (Or.inr (Or.inr ⟨[IP.v4 10 0 0 5], by decide, IP.v4 10 0 0 5, by decide, by decide⟩)))
    ⟨urlparse "http://intranet.local/x", rfl⟩,
   (c1_fetch_blocks_parsed_urls_before_cache
      (fun h => if h = "intranet.local" then some [IP.v4 10 0 0 5] else none)
      (fun _ => NetResult.ok "server body") 0
      [("http://intranet.local/x", "cached body", 0)] "http://[::1").2
    "Invalid IPv6 URL" rfl
    (fun _ => NetResult.ok "server body")
    [("http://intranet.local/x", "cached body", 0)]⟩

/-! ## C5: cache hits within the TTL, lazy eviction after it -/

/-- After `_cache_set`, looking the URL up finds the fresh entry. -/
lemma cacheLookup_cacheSet (c : Cache) (url html : String) (now : ℚ) :
    cacheLookup (cacheSet c url html now) url = some (html, now) := by
  unfold cacheSet
  induction c with
  | nil => simp [cacheLookup, cacheErase]
  | cons kv rest ih =>
      obtain ⟨k, v⟩ := kv
      by_cases hk : k = url
      · simpa [cacheErase, hk] using ih
      · simpa [cacheErase, hk, cacheLookup] using ih

/-- A fetch against a cache holding a fresh entry for the URL is a pure
cache hit: same body, no network call, cache unchanged. -/
lemma fetch_cache_hit (resolve : String → Option (List IP))
    (net2 : String → NetResult) (now2 : ℚ) (c2 : Cache) (url body : String) (ts : ℚ)
    (hv : validate_url resolve url = none)
    (hlook : cacheLookup c2 url = some (body, ts))
    (hfresh : now2 - ts ≤ CACHE_TTL) :
    _fetch resolve net2 now2 c2 url = ⟨some body, none, c2, false⟩ := by
  have hhit : cache_get c2 now2 url = (some body, c2) := by
    unfold cache_get
    rw [hlook]
    dsimp only
    rw [if_neg (not_lt.mpr hfresh)]
  unfold _fetch
  rw [hv, hhit]

/-- A fetch against a cache whose entry for the URL is older than the TTL
evicts the entry during the lookup and issues a network call. -/
lemma fetch_cache_stale (resolve : String → Option (List IP))
    (net2 : String → NetResult) (now2 : ℚ) (c2 : Cache) (url body : String) (ts : ℚ)
    (hv : validate_url resolve url = none)
    (hlook : cacheLookup c2 url = some (body, ts))
    (hstale : CACHE_TTL < now2 - ts) :
    (_fetch resolve net2 now2 c2 url).networkCalled = true ∧
    cache_get c2 now2 url = (none, cacheErase c2 url) := by
  have hevict : cache_get c2 now2 url = (none, cacheErase c2 url) := by
    unfold cache_get
    rw [hlook]
    dsimp only
    rw [if_pos hstale]
  refine ⟨?_, hevict⟩
  unfold _fetch
  rw [hv, hevict]
  cases net2 url <;> rfl

/-- C5: a URL fetched once over the network is served from the cache on a
second fetch within the 300-second TTL — byte-identical body, no network
call, cache unchanged — while after the TTL the entry is evicted lazily by
the lookup itself and a new network call is issued. -/
theorem c5_cache_ttl_roundtrip (resolve : String → Option (List IP))
    (net : String → NetResult) (now1 : ℚ) (c : Cache) (url body : String)
    (hv : validate_url resolve url = none)
    (hnet : net url = NetResult.ok body)
    (hmiss : (cache_get c now1 url).1 = none) :
    (_fetch resolve net now1 c url).html = some body ∧
    (_fetch resolve net now1 c url).networkCalled = true ∧
    (∀ (net2 : String → NetResult) (now2 : ℚ), now2 - now1 ≤ CACHE_TTL →
       _fetch resolve net2 now2 (_fetch resolve net now1 c url).cache url
         = ⟨some body, none, (_fetch resolve net now1 c url).cache, false⟩) ∧
    (∀ (net2 : String → NetResult) (now2 : ℚ), CACHE_TTL < now2 - now1 →
       (_fetch resolve net2 now2 (_fetch resolve net now1 c url).cache url).networkCalled = true ∧
       cache_get (_fetch resolve net now1 c url).cache now2 url
         = (none, cacheErase (_fetch resolve net now1 c url).cache url)) := by
  have hcg : cache_get c now1 url = (none, (cache_get c now1 url).2) := by
    rw [← hmiss]
  have h1 : _fetch resolve net now1 c url
      = ⟨some body, none, cacheSet (cache_get c now1 url).2 url body now1, true⟩ := by
    unfold _fetch
    rw [hv, hcg, hnet]
  have hlook : cacheLookup (_fetch resolve net now1 c url).cache url = some (body, now1) := by
    rw [h1]
    exact cacheLookup_cacheSet _ url body now1
  refine ⟨by rw [h1], by rw [h1], ?_, ?_⟩
  · intro net2 now2 hfresh
    exact fetch_cache_hit resolve net2 now2 _ url body now1 hv hlook hfresh
  · intro net2 now2 hstale
    exact fetch_cache_stale resolve net2 now2 _ url body now1 hv hlook hstale

/-- Witness for C5: fetching `http://ok.example/a` at time 0 stores the body;
a re-fetch at time 200 is a cache hit, and at time 400 the entry is evicted
and the network is called again. -/
theorem c5_witness :
    ((_fetch (fun _ => some [IP.v4 93 184 216 34]) (fun _ => NetResult.ok "BODY") 0 []
        "http://ok.example/a").html = some "BODY" ∧
     (_fetch (fun _ => some [IP.v4 93 184 216 34]) (fun _ => NetResult.ok "BODY") 0 []
        "http://ok.example/a").networkCalled = true ∧
     (∀ (net2 : String → NetResult) (now2 : ℚ), now2 - 0 ≤ CACHE_TTL →
        _fetch (fun _ => some [IP.v4 93 184 216 34]) net2 now2
            (_fetch (fun _ => some [IP.v4 93 184 216 34]) (fun _ => NetResult.ok "BODY") 0 []
              "http://ok.example/a").cache "http://ok.example/a"
          = ⟨some "BODY", none,
             (_fetch (fun _ => some [IP.v4 93 184 216 34]) (fun _ => NetResult.ok "BODY") 0 []
               "http://ok.example/a").cache, false⟩) ∧
     (∀ (net2 : String → NetResult) (now2 : ℚ), CACHE_TTL < now2 - 0 →
        (_fetch (fun _ => some [IP.v4 93 184 216 34]) net2 now2
            (_fetch (fun _ => some [IP.v4 93 184 216 34]) (fun _ => NetResult.ok "BODY") 0 []
              "http://ok.example/a").cache "http://ok.example/a").networkCalled = true ∧
        cache_get (_fetch (fun _ => some [IP.v4 93 184 216 34]) (fun _ => NetResult.ok "BODY") 0 []
              "http://ok.example/a").cache now2 "http://ok.example/a"
          = (none, cacheErase (_fetch (fun _ => some [IP.v4 93 184 216 34])
              (fun _ => NetResult.ok "BODY") 0 [] "http://ok.example/a").cache
              "http://ok.example/a"))) :=
  c5_cache_ttl_roundtrip (fun _ => some [IP.v4 93 184 216 34]) (fun _ => NetResult.ok "BODY")
    0 [] "http://ok.example/a" "BODY" (by decide) rfl rfl

/-! ## Rate limiting middleware (`app/security.py`, sliding window) -/

/-- Python `int()` applied to a float/rational: truncation toward zero. -/
def pyInt (q : ℚ) : ℤ := if 0 ≤ q then ⌊q⌋ else ⌈q⌉

/-- One key's window: request timestamps, oldest first (the deque). -/
abbrev Window := List ℚ

/-- The middleware's mutable state: `self._windows` (an association list
standing for the dict, first occurrence binding) and `self._request_count`. -/
structure RLState where
  windows : List (String × Window)
  requestCount : Nat
deriving DecidableEq, Repr

/-- What `dispatch` does with one request: pass it through unexamined (no
API key header), admit it to `call_next`, reject it with a 429 response
carrying this `Retry-After` value, or crash with an `IndexError`
(`window[0]` when `rpm = 0` and the window is empty). -/
inductive RLOutcome where
  | passthrough
  | admitted
  | rejected (retryAfter : ℤ)
  | indexError
deriving DecidableEq, Repr

/-- Dict lookup on the windows map. -/
def winLookup : List (String × Window) → String → Option Window
  | [], _ => none
  | (k, v) :: rest, key => if k = key then some v else winLookup rest key

/-- Dict update: replace the first binding of `key`, or append a new one
(the mutation of the deque obtained via `setdefault`). -/
def winSet : List (String × Window) → String → Window → List (String × Window)
  | [], key, w => [(key, w)]
  | (k, v) :: rest, key, w =>
      if k = key then (key, w) :: rest else (k, v) :: winSet rest key w

/-- `while window and window[0] < now - 60: window.popleft()`. -/
def purgeOld (now : ℚ) : Window → Window
  | [] => []
  | t :: ts => if t < now - 60 then purgeOld now ts else t :: ts

/-- `_cleanup(now)`: drop every key whose window is empty or whose most
recent timestamp is older than 60 seconds. -/
def rlCleanup (now : ℚ) (ws : List (String × Window)) : List (String × Window) :=
  ws.filter (fun kv =>
    match kv.2.getLast? with
    | none => false
    | some t => decide (¬ t < now - 60))

/-- `RateLimitMiddleware.dispatch` for one request at time `now` carrying
`apiKey` (the `X-API-Key` header, `none` when absent). -/
def dispatch (rpm : Nat) (st : RLState) (apiKey : Option String) (now : ℚ) :
    RLOutcome × RLState :=
  match apiKey with
  | none => (.passthrough, st)
  | some key =>
      let window := (winLookup st.windows key).getD []
      let w := purgeOld now window
      if rpm ≤ w.length then
        match w with
        | [] => (.indexError, ⟨winSet st.windows key [], st.requestCount⟩)
        | t0 :: _ =>
            (.rejected (max (pyInt (61 - (now - t0))) 1),
             ⟨winSet st.windows key w, st.requestCount⟩)
      else
        let w2 := w ++ [now]
        let count := st.requestCount + 1
        let windows2 := winSet st.windows key w2
        if count % 100 = 0 then (.admitted, ⟨rlCleanup now windows2, count⟩)
        else (.admitted, ⟨windows2, count⟩)

/-- Run a sequence of requests `(apiKey, time)` through the middleware. -/
def runSeq (rpm : Nat) (st : RLState) : List (Option String × ℚ) → List RLOutcome × RLState
  | [] => ([], st)
  | (k, t) :: rest =>
      let (o, st2) := dispatch rpm st k t
      let (os, st3) := runSeq rpm st2 rest
      (o :: os, st3)

/-! ## Rate limiter lemmas -/

/-- A window with no entry older than the 60-second lookback is unchanged
by the purge. -/
lemma purgeOld_eq_self (now : ℚ) (w : Window) (h : ∀ t ∈ w, ¬ t < now - 60) :
    purgeOld now w = w := by
  induction w with
  | nil => rfl
  | cons t ts _ =>
      unfold purgeOld
      rw [if_neg (h t (by simp))]

/-- Purging never lengthens a window. -/
lemma purgeOld_length_le (now : ℚ) (w : Window) : (purgeOld now w).length ≤ w.length := by
  induction w with
  | nil => simp [purgeOld]
  | cons t ts ih =>
      unfold purgeOld
      by_cases h : t < now - 60
      · rw [if_pos h]; exact Nat.le_succ_of_le ih
      · rw [if_neg h]

/-- Updating a key's window makes it the one the next lookup finds. -/
lemma winLookup_winSet (ws : List (String × Window)) (key : String) (w : Window) :
    winLookup (winSet ws key w) key = some w := by
  induction ws with
  | nil => simp [winSet, winLookup]
  | cons kv rest ih =>
      obtain ⟨k, v⟩ := kv
      by_cases hk : k = key
      · simp [winSet, winLookup, hk]
      · simp [winSet, winLookup, hk, ih]

/-- The cleanup keeps any key whose window's last timestamp is recent. -/
lemma winLookup_rlCleanup (now : ℚ) (ws : List (String × Window)) (key : String)
    (w : Window) (tl : ℚ) (h : winLookup ws key = some w)
    (hlast : w.getLast? = some tl) (hrecent : ¬ tl < now - 60) :
    winLookup (rlCleanup now ws) key = some w := by
  induction ws with
  | nil => simp [winLookup] at h
  | cons kv rest ih =>
      obtain ⟨k, v⟩ := kv
      by_cases hk : k = key
      · rw [winLookup, if_pos hk] at h
        obtain rfl : v = w := by injection h
        have hkeep : (match List.getLast? v with
            | none => false
            | some t => decide (¬ t < now - 60)) = true := by
          rw [hlast]
          simpa using hrecent
        simp only [rlCleanup, List.filter]
        simp only [hkeep]
        rw [winLookup, if_pos hk]
      · rw [winLookup, if_neg hk] at h
        have ihres := ih h
        simp only [rlCleanup, List.filter] at ihres ⊢
        cases hkv : (match v.getLast? with
            | none => false
            | some t => decide (¬ t < now - 60)) with
        | false => exact ihres
        | true => rw [winLookup, if_neg hk]; exact ihres

/-- An admitted request: when the purged window is shorter than the limit,
`dispatch` admits and appends `now` to that key's window. -/
lemma dispatch_admitted (rpm : Nat) (st : RLState) (key : String) (now : ℚ) (pw : Window)
    (hpw : purgeOld now ((winLookup st.windows key).getD []) = pw)
    (hlen : pw.length < rpm) :
    (dispatch rpm st (some key) now).1 = .admitted ∧
    (winLookup (dispatch rpm st (some key) now).2.windows key).getD [] = pw ++ [now] := by
  unfold dispatch
  dsimp only
  rw [hpw, if_neg (not_le.mpr hlen)]
  by_cases hc : (st.requestCount + 1) % 100 = 0
  · rw [if_pos hc]
    refine ⟨rfl, ?_⟩
    have hset := winLookup_winSet st.windows key (pw ++ [now])
    rw [winLookup_rlCleanup now _ key (pw ++ [now]) now hset (List.getLast?_concat _)
      (by linarith)]
    rfl
  · rw [if_neg hc]
    refine ⟨rfl, ?_⟩
    rw [winLookup_winSet]
    rfl

/-- A rejected request: when the purged window already holds `rpm` or more
timestamps, `dispatch` rejects with the computed `Retry-After` and stores
the purged window. -/
lemma dispatch_rejected (rpm : Nat) (st : RLState) (key : String) (now t0 : ℚ) (w : Window)
    (hw : purgeOld now ((winLookup st.windows key).getD []) = t0 :: w)
    (hlen : rpm ≤ w.length + 1) :
    dispatch rpm st (some key) now
      = (.rejected (max (pyInt (61 - (now - t0))) 1),
         ⟨winSet st.windows key (t0 :: w), st.requestCount⟩) := by
  unfold dispatch
  dsimp only
  rw [hw, if_pos (by simpa using hlen)]

/-- `runSeq` on a nonempty request list: one dispatch, then the rest. -/
lemma runSeq_cons (rpm : Nat) (st : RLState) (k : Option String) (t : ℚ)
    (rest : List (Option String × ℚ)) :
    runSeq rpm st ((k, t) :: rest)
      = ((dispatch rpm st k t).1 :: (runSeq rpm (dispatch rpm st k t).2 rest).1,
         (runSeq rpm (dispatch rpm st k t).2 rest).2) := rfl

/-- A run of same-key requests that all stay within the window limit is
admitted throughout, and the key's window accumulates all their timestamps. -/
lemma runSeq_admits (rpm : Nat) (key : String) :
    ∀ (times : List ℚ) (st : RLState) (prevW : Window),
      (winLookup st.windows key).getD [] = prevW →
      (∀ t ∈ times, ∀ s ∈ prevW, ¬ s < t - 60) →
      (∀ t ∈ times, ∀ s ∈ times, ¬ s < t - 60) →
      prevW.length + times.length ≤ rpm →
      (runSeq rpm st (times.map (fun t => (some key, t)))).1
        = times.map (fun _ => RLOutcome.admitted) ∧
      (winLookup (runSeq rpm st (times.map (fun t => (some key, t)))).2.windows key).getD []
        = prevW ++ times
  | [], st, prevW, hw, _, _, _ => by simpa [runSeq] using hw
  | t :: rest, st, prevW, hw, hold, hnew, hlen => by
      have hpw : purgeOld t ((winLookup st.windows key).getD []) = prevW := by
        rw [hw]
        exact purgeOld_eq_self t prevW (fun s hs => hold t (by simp) s hs)
      have hl : prevW.length < rpm := by
        simp only [List.length_cons] at hlen
        omega
      obtain ⟨ho, hwin⟩ := dispatch_admitted rpm st key t prevW hpw hl
      have ih := runSeq_admits rpm key rest (dispatch rpm st (some key) t).2 (prevW ++ [t])
        hwin
        (fun t' ht' s hs => by
          rcases List.mem_append.mp hs with hs | hs
          · exact hold t' (by simp [ht']) s hs
          · have : s = t := by simpa using hs
            exact this ▸ hnew t' (by simp [ht']) t (by simp))
        (fun t' ht' s hs => hnew t' (by simp [ht']) s (by simp [hs]))
        (by simp only [List.length_append, List.length_cons, List.length_nil] at hlen ⊢; omega)
      refine ⟨?_, ?_⟩
      · rw [List.map_cons, List.map_cons, runSeq_cons]
        rw [ho, ih.1]
      · rw [List.map_cons, runSeq_cons]
        rw [ih.2]
        simp

/-! ## C3: sliding-window admission and recovery -/

/-- C3: from a state with no window for `key`, `rpm` requests within a
60-second span are all admitted; request `rpm+1` still within the span is
rejected (the 429 response) with a Retry-After of at least 1; a further
request more than 60 seconds after the first finds the first timestamp
purged and is admitted; and a request carrying no API key passes through
with the state untouched. -/
theorem c3_rate_limit_sliding_window (rpm : Nat) (key : String) (st0 : RLState)
    (t1 : ℚ) (restT : List ℚ) (tR tN : ℚ)
    (hfresh : winLookup st0.windows key = none)
    (hlen : restT.length + 1 = rpm)
    (hspan : ∀ a ∈ t1 :: restT, ∀ b ∈ t1 :: restT, ¬ b < a - 60)
    (hspanR : ∀ b ∈ t1 :: restT, ¬ b < tR - 60)
    (hold : t1 < tN - 60) :
    (runSeq rpm st0 ((t1 :: restT).map (fun t => (some key, t)))).1
      = (t1 :: restT).map (fun _ => RLOutcome.admitted)
    ∧ (dispatch rpm (runSeq rpm st0 ((t1 :: restT).map (fun t => (some key, t)))).2
          (some key) tR).1
        = .rejected (max (pyInt (61 - (tR - t1))) 1)
    ∧ 1 ≤ max (pyInt (61 - (tR - t1))) 1
    ∧ (dispatch rpm (dispatch rpm (runSeq rpm st0
          ((t1 :: restT).map (fun t => (some key, t)))).2 (some key) tR).2
          (some key) tN).1 = .admitted
    ∧ (winLookup (dispatch rpm (dispatch rpm (runSeq rpm st0
          ((t1 :: restT).map (fun t => (some key, t)))).2 (some key) tR).2
          (some key) tN).2.windows key).getD []
        = purgeOld tN restT ++ [tN]
    ∧ (∀ (st : RLState) (now : ℚ), dispatch rpm st none now = (.passthrough, st)) := by
  have hrun := runSeq_admits rpm key (t1 :: restT) st0 []
    (by rw [hfresh]; rfl)
    (by intro t _ s hs; simp at hs)
    hspan
    (by simp [← hlen])
  have hw1 : (winLookup (runSeq rpm st0
      ((t1 :: restT).map (fun t => (some key, t)))).2.windows key).getD [] = t1 :: restT := by
    simpa using hrun.2
  have hpurgeR : purgeOld tR ((winLookup (runSeq rpm st0
      ((t1 :: restT).map (fun t => (some key, t)))).2.windows key).getD []) = t1 :: restT := by
    rw [hw1]
    exact purgeOld_eq_self tR _ hspanR
  have hrej := dispatch_rejected rpm _ key tR t1 restT hpurgeR (by omega)
  have hw2 : (winLookup (dispatch rpm (runSeq rpm st0
      ((t1 :: restT).map (fun t => (some key, t)))).2 (some key) tR).2.windows key).getD []
      = t1 :: restT := by
    rw [hrej]
    dsimp only
    rw [winLookup_winSet]
    rfl
  have hpurgeN : purgeOld tN ((winLookup (dispatch rpm (runSeq rpm st0
      ((t1 :: restT).map (fun t => (some key, t)))).2 (some key) tR).2.windows key).getD [])
      = purgeOld tN restT := by
    rw [hw2]
    rw [purgeOld, if_pos hold]
  have hlenN : (purgeOld tN restT).length < rpm :=
    lt_of_le_of_lt (purgeOld_length_le tN restT) (by omega)
  have hadm := dispatch_admitted rpm _ key tN _ hpurgeN hlenN
  exact ⟨hrun.1, by rw [hrej], le_max_right _ _, hadm.1, hadm.2, fun st now => rfl⟩

/-- Witness for C3: rpm = 2, requests at 0 and 10 admitted, a third at 20
rejected with positive Retry-After, a fourth at 61 admitted again. -/
theorem c3_witness :
    (runSeq 2 ⟨[], 0⟩ (([0, 10] : List ℚ).map (fun t => (some "k", t)))).1
      = ([0, 10] : List ℚ).map (fun _ => RLOutcome.admitted)
    ∧ (dispatch 2 (runSeq 2 ⟨[], 0⟩ (([0, 10] : List ℚ).map (fun t => (some "k", t)))).2
          (some "k") 20).1
        = .rejected (max (pyInt (61 - (20 - 0))) 1)
    ∧ 1 ≤ max (pyInt (61 - ((20 : ℚ) - 0))) 1
    ∧ (dispatch 2 (dispatch 2 (runSeq 2 ⟨[], 0⟩
          (([0, 10] : List ℚ).map (fun t => (some "k", t)))).2 (some "k") 20).2
          (some "k") 61).1 = .admitted
    ∧ (winLookup (dispatch 2 (dispatch 2 (runSeq 2 ⟨[], 0⟩
          (([0, 10] : List ℚ).map (fun t => (some "k", t)))).2 (some "k") 20).2
          (some "k") 61).2.windows "k").getD []
        = purgeOld 61 [10] ++ [61]
    ∧ (∀ (st : RLState) (now : ℚ), dispatch 2 st none now = (.passthrough, st)) :=
  c3_rate_limit_sliding_window 2 "k" ⟨[], 0⟩ 0 [10] 20 61
    rfl
    rfl
    (by intro a ha b hb; fin_cases ha <;> fin_cases hb <;> norm_num)
    (by intro b hb; fin_cases hb <;> norm_num)
    (by norm_num)

/-! ## C4: the Retry-After value -/

/-- C4 (counterexample): a window whose single timestamp is 0 and a request
at `now = 30` yield Retry-After 31, not the claimed
`max(60 - (now - t0), 1) = 30`. -/
theorem c4_counterexample :
    (dispatch 1 ⟨[("k", [(0 : ℚ)])], 0⟩ (some "k") 30).1 = RLOutcome.rejected 31 ∧
    (31 : ℤ) ≠ max (60 - (30 - 0)) 1 := by
  constructor
  · rw [dispatch_rejected 1 ⟨[("k", [(0 : ℚ)])], 0⟩ "k" 30 0 []
      (by norm_num [winLookup, purgeOld]) (by norm_num)]
    norm_num [pyInt]
  · decide

/-- C4 amended: when the limiter rejects, the Retry-After value is
`max(int(61 - (now - t0)), 1)` for `t0` the oldest timestamp of the purged
window (one more than the claimed value at integral elapsed times, the
round-up of the time-to-exit otherwise), and it is at least 1. -/
theorem c4_retry_after_value (rpm : Nat) (st : RLState) (key : String)
    (now t0 : ℚ) (w : Window)
    (hw : purgeOld now ((winLookup st.windows key).getD []) = t0 :: w)
    (hlen : rpm ≤ w.length + 1) :
    (dispatch rpm st (some key) now).1 = .rejected (max (pyInt (61 - (now - t0))) 1) ∧
    1 ≤ max (pyInt (61 - (now - t0))) 1 :=
  ⟨by rw [dispatch_rejected rpm st key now t0 w hw hlen], le_max_right _ _⟩

/-- Witness for C4: the rejected request at `now = 30` with oldest
timestamp 0 returns Retry-After `max(int(61 - 30), 1)`. -/
theorem c4_witness :
    (dispatch 1 ⟨[("k", [(0 : ℚ)])], 0⟩ (some "k") 30).1
        = RLOutcome.rejected (max (pyInt (61 - (30 - 0))) 1) ∧
    1 ≤ max (pyInt (61 - ((30 : ℚ) - 0))) 1 :=
  c4_retry_after_value 1 ⟨[("k", [(0 : ℚ)])], 0⟩ "k" 30 0 []
    (by norm_num [winLookup, purgeOld]) (by norm_num)

/-! ## Output truncation (`_truncate` in `app/tools.py`) -/

/-- Python `text[:n]`: the first `n` code points. -/
def pyTake (s : String) (n : Nat) : String := String.mk (s.toList.take n)

/-- The marker `_truncate` appends, for a given limit. -/
def truncMarker (limit : Nat) : String :=
  "\n\n[Truncated — showing first " ++ toString limit ++ " characters]"

/-- `_truncate(text, limit=_MAX_CHARS)`. -/
def _truncate (text : String) (limit : Nat := MAX_CHARS) : String :=
  if limit < text.length then pyTake text limit ++ truncMarker limit else text

/-! ## The crawler (`crawl` in `app/tools.py`) -/

/-- CPython `urlunsplit` (the `geturl` of a parse result; params live
inside `path` here, matching how `urlparse` above keeps them). -/
def urlunsplit (u : URL) : String :=
  let url := u.path
  let url := if u.netloc ≠ "" ∨ url.startsWith "//" then
      "//" ++ u.netloc ++ (if url ≠ "" ∧ ¬ url.startsWith "/" then "/" ++ url else url)
    else url
  let url := if u.scheme ≠ "" then u.scheme ++ ":" ++ url else url
  let url := if u.query ≠ "" then url ++ "?" ++ u.query else url
  if u.fragment ≠ "" then url ++ "#" ++ u.fragment else url

/-- The crawl's dedup key: `urlparse(u)._replace(query="", fragment="").geturl()`. -/
def normalizeURL (s : String) : String :=
  let p := urlparse s
  urlunsplit ⟨p.scheme, p.netloc, p.path, "", ""⟩

/-- Outcome of `_fetch` plus parsing for one page in a crawl: the fetch
error, or the selector-matched element texts together with the absolute
URLs (`urljoin(current_url, href)`) of the page's anchors. -/
inductive PageResult where
  | fail (msg : String)
  | page (texts : List String) (links : List String)
deriving Repr

/-- Per-invocation crawl state, plus instrumentation: `fetched` records
each URL passed to `_fetch` together with the visited set at that moment,
and `enqueued` records every link ever appended to the queue. -/
structure CrawlAcc where
  visited : List String
  results : List String
  fetched : List (String × List String)
  enqueued : List String
deriving Repr

/-- The link-discovery filter: scheme http/https, netloc equal to the start
domain, normalized target not in `visited`. -/
def crawlLinkOK (domain : String) (visited : List String) (l : String) : Bool :=
  ((urlparse l).scheme == "http" || (urlparse l).scheme == "https")
    && (urlparse l).netloc == domain
    && !(visited.contains (normalizeURL l))

/-- The `while queue and len(visited) < max_pages` loop of `crawl`, with an
explicit fuel bound on iterations (the Python loop always terminates since
each iteration pops the queue and at most `max_pages` iterations refill it;
every property below is proved for all fuel). -/
def crawlLoop (env : String → PageResult) (selector domain : String) (maxPages : Nat) :
    Nat → List String → CrawlAcc → CrawlAcc
  | 0, _, acc => acc
  | _ + 1, [], acc => acc
  | fuel + 1, current :: rest, acc =>
      if maxPages ≤ acc.visited.length then acc
      else
        let norm := normalizeURL current
        if acc.visited.contains norm then
          crawlLoop env selector domain maxPages fuel rest acc
        else
          let visited2 := acc.visited ++ [norm]
          match env current with
          | .fail msg =>
              crawlLoop env selector domain maxPages fuel rest
                ⟨visited2, acc.results ++ ["[" ++ current ++ "]\nError: " ++ msg],
                 acc.fetched ++ [(current, visited2)], acc.enqueued⟩
          | .page texts links =>
              let entry :=
                if texts.isEmpty then
                  "[" ++ current ++ "]\nNo elements matching '" ++ selector ++ "'."
                else
                  "[" ++ current ++ "]\n" ++ String.intercalate "\n" texts
              let newLinks := links.filter (crawlLinkOK domain visited2)
              crawlLoop env selector domain maxPages fuel (rest ++ newLinks)
                ⟨visited2, acc.results ++ [entry],
                 acc.fetched ++ [(current, visited2)], acc.enqueued ++ newLinks⟩

/-- `crawl(url, max_pages, selector)`: clamp `max_pages` to [1, 10], crawl
breadth-first from `url`, join the per-page results and truncate to the
20,000-character crawl budget. -/
def crawl (env : String → PageResult) (url : String) (max_pages : ℤ) (selector : String)
    (fuel : Nat) : CrawlAcc × String :=
  let mp := (max 1 (min 10 max_pages)).toNat
  let domain := (urlparse url).netloc
  let acc := crawlLoop env selector domain mp fuel [url] ⟨[], [], [], []⟩
  (acc, _truncate (String.intercalate "\n\n---\n\n" acc.results) 20000)

/-! ## C2 and C10: crawl invariants -/

/-- The loop invariant of `crawlLoop`. `startUrl` is the crawl's seed and
`domain` the start URL's netloc. -/
structure CrawlInv (startUrl domain : String) (maxPages : Nat)
    (queue : List String) (acc : CrawlAcc) : Prop where
  vis_le : acc.visited.length ≤ maxPages
  vis_nodup : acc.visited.Nodup
  vis_eq : acc.visited = acc.fetched.map (fun p => normalizeURL p.1)
  enq_ok : ∀ l ∈ acc.enqueued,
    ((urlparse l).scheme = "http" ∨ (urlparse l).scheme = "https") ∧
    (urlparse l).netloc = domain
  queue_ok : ∀ q ∈ queue, q = startUrl ∨ q ∈ acc.enqueued
  fetched_ok : ∀ p ∈ acc.fetched, p.1 = startUrl ∨ p.1 ∈ acc.enqueued
  fetched_vis : ∀ p ∈ acc.fetched, normalizeURL p.1 ∈ p.2

/-- A link passing the discovery filter has scheme http/https and the
start domain's netloc. -/
lemma crawlLinkOK_domain (domain : String) (visited : List String) (l : String)
    (h : crawlLinkOK domain visited l = true) :
    ((urlparse l).scheme = "http" ∨ (urlparse l).scheme = "https") ∧
    (urlparse l).netloc = domain := by
  simp only [crawlLinkOK, Bool.and_eq_true, Bool.or_eq_true, beq_iff_eq] at h
  exact ⟨h.1.1, h.1.2⟩

/-- The crawl loop preserves the invariant through to its final state. -/
lemma crawlLoop_inv (env : String → PageResult) (selector domain startUrl : String)
    (maxPages : Nat) :
    ∀ (fuel : Nat) (queue : List String) (acc : CrawlAcc),
      CrawlInv startUrl domain maxPages queue acc →
      CrawlInv startUrl domain maxPages []
        (crawlLoop env selector domain maxPages fuel queue acc)
  | 0, _, acc, inv => by
      exact ⟨inv.vis_le, inv.vis_nodup, inv.vis_eq, inv.enq_ok, by simp,
        inv.fetched_ok, inv.fetched_vis⟩
  | _ + 1, [], acc, inv => by
      exact ⟨inv.vis_le, inv.vis_nodup, inv.vis_eq, inv.enq_ok, by simp,
        inv.fetched_ok, inv.fetched_vis⟩
  | fuel + 1, current :: rest, acc, inv => by
      rw [crawlLoop]
      by_cases hfull : maxPages ≤ acc.visited.length
      · rw [if_pos hfull]
        exact ⟨inv.vis_le, inv.vis_nodup, inv.vis_eq, inv.enq_ok, by simp,
          inv.fetched_ok, inv.fetched_vis⟩
      · rw [if_neg hfull]
        by_cases hseen : acc.visited.contains (normalizeURL current)
        · rw [if_pos hseen]
          exact crawlLoop_inv env selector domain startUrl maxPages fuel rest acc
            ⟨inv.vis_le, inv.vis_nodup, inv.vis_eq, inv.enq_ok,
             fun q hq => inv.queue_ok q (by simp [hq]),
             inv.fetched_ok, inv.fetched_vis⟩
        · rw [if_neg hseen]
          have hnotmem : normalizeURL current ∉ acc.visited := by
            simpa using hseen
          have hlen2 : (acc.visited ++ [normalizeURL current]).length ≤ maxPages := by
            simp only [List.length_append, List.length_cons, List.length_nil]
            omega
          have hnodup2 : (acc.visited ++ [normalizeURL current]).Nodup := by
            rw [List.nodup_append]
            exact ⟨inv.vis_nodup, List.nodup_singleton _, by simpa using hnotmem⟩
          have hvismem : normalizeURL current ∈ acc.visited ++ [normalizeURL current] := by
            simp
          cases henv : env current with
          | fail msg =>
              exact crawlLoop_inv env selector domain startUrl maxPages fuel rest _
                ⟨hlen2, hnodup2,
                 by simp [inv.vis_eq],
                 inv.enq_ok,
                 fun q hq => inv.queue_ok q (by simp [hq]),
                 fun p hp => by
                   rcases List.mem_append.mp hp with hp | hp
                   · exact inv.fetched_ok p hp
                   · have : p = (current, acc.visited ++ [normalizeURL current]) := by
                       simpa using hp
                     subst this
                     exact inv.queue_ok current (by simp),
                 fun p hp => by
                   rcases List.mem_append.mp hp with hp | hp
                   · exact inv.fetched_vis p hp
                   · have : p = (current, acc.visited ++ [normalizeURL current]) := by
                       simpa using hp
                     subst this
                     exact hvismem⟩
          | page texts links =>
              exact crawlLoop_inv env selector domain startUrl maxPages fuel _ _
                ⟨hlen2, hnodup2,
                 by simp [inv.vis_eq],
                 fun l hl => by
                   rcases List.mem_append.mp hl with hl | hl
                   · exact inv.enq_ok l hl
                   · exact crawlLinkOK_domain domain _ l (List.of_mem_filter hl),
                 fun q hq => by
                   rcases List.mem_append.mp hq with hq | hq
                   · exact (inv.queue_ok q (by simp [hq])).imp_right
                       (fun h => List.mem_append.mpr (Or.inl h))
                   · exact Or.inr (List.mem_append.mpr (Or.inr hq)),
                 fun p hp => by
                   rcases List.mem_append.mp hp with hp | hp
                   · exact (inv.fetched_ok p hp).imp_right
                       (fun h => List.mem_append.mpr (Or.inl h))
                   · have : p = (current, acc.visited ++ [normalizeURL current]) := by
                       simpa using hp
                     subst this
                     exact (inv.queue_ok current (by simp)).imp_right
                       (fun h => List.mem_append.mpr (Or.inl h)),
                 fun p hp => by
                   rcases List.mem_append.mp hp with hp | hp
                   · exact inv.fetched_vis p hp
                   · have : p = (current, acc.visited ++ [normalizeURL current]) := by
                       simpa using hp
                     subst this
                     exact hvismem⟩

/-- C2: for every crawl the number of visited (normalized) URLs never
exceeds `clamp(max_pages, 1, 10)`; every link ever enqueued has scheme
http or https and a netloc equal to the start URL's netloc; every fetched
URL is the start URL or an enqueued link (so an external-domain link is
never fetched); and every fetched URL's normalization was already in the
visited set when its fetch was attempted. -/
theorem c2_crawl_bounds_and_domain (env : String → PageResult) (url selector : String)
    (max_pages : ℤ) (fuel : Nat) :
    (crawl env url max_pages selector fuel).1.visited.length
        ≤ (max 1 (min 10 max_pages)).toNat
    ∧ (∀ l ∈ (crawl env url max_pages selector fuel).1.enqueued,
        ((urlparse l).scheme = "http" ∨ (urlparse l).scheme = "https") ∧
        (urlparse l).netloc = (urlparse url).netloc)
    ∧ (∀ p ∈ (crawl env url max_pages selector fuel).1.fetched,
        p.1 = url ∨ p.1 ∈ (crawl env url max_pages selector fuel).1.enqueued)
    ∧ (∀ p ∈ (crawl env url max_pages selector fuel).1.fetched,
        normalizeURL p.1 ∈ p.2) := by
  have inv0 : CrawlInv url (urlparse url).netloc ((max 1 (min 10 max_pages)).toNat)
      [url] ⟨[], [], [], []⟩ :=
    ⟨Nat.zero_le _, List.nodup_nil, rfl, by simp,
     fun q hq => Or.inl (by simpa using hq), by simp, by simp⟩
  have hinv := crawlLoop_inv env selector (urlparse url).netloc url
    ((max 1 (min 10 max_pages)).toNat) fuel [url] ⟨[], [], [], []⟩ inv0
  exact ⟨hinv.vis_le, hinv.enq_ok, hinv.fetched_ok, hinv.fetched_vis⟩

/-- C10: within one crawl invocation each normalized URL is fetched at most
once — the list of normalizations of the URLs passed to `_fetch` has no
duplicate, even though the same target may sit in the queue several times. -/
theorem c10_crawl_fetches_each_normalized_url_once (env : String → PageResult)
    (url selector : String) (max_pages : ℤ) (fuel : Nat) :
    ((crawl env url max_pages selector fuel).1.fetched.map
        (fun p => normalizeURL p.1)).Nodup := by
  have inv0 : CrawlInv url (urlparse url).netloc ((max 1 (min 10 max_pages)).toNat)
      [url] ⟨[], [], [], []⟩ :=
    ⟨Nat.zero_le _, List.nodup_nil, rfl, by simp,
     fun q hq => Or.inl (by simpa using hq), by simp, by simp⟩
  have hinv := crawlLoop_inv env selector (urlparse url).netloc url
    ((max 1 (min 10 max_pages)).toNat) fuel [url] ⟨[], [], [], []⟩ inv0
  have hnodup := hinv.vis_nodup
  rw [hinv.vis_eq] at hnodup
  exact hnodup

/-! ## Streaming relay (`run_mission` in `app/routes.py`) -/

/-- An event produced by `agent.astream_events`: a chat-model chunk with
its text content, a tool start/end with the tool name, or any other event
kind (forwarded as nothing). -/
inductive AgentEvent where
  | chatStream (content : String)
  | toolStart (name : String)
  | toolEnd (name : String)
  | otherEvent
deriving DecidableEq, Repr

/-- A wire frame of the SSE stream (the `type` of the JSON envelope). -/
inductive Frame where
  | token (s : String)
  | tool_start (s : String)
  | tool_end (s : String)
  | done
  | error (msg : String)
deriving DecidableEq, Repr

/-- What the loop body yields for one event: a `token` frame for a chunk
with non-empty content, `tool_start`/`tool_end` frames, nothing otherwise. -/
def frameOf : AgentEvent → Option Frame
  | .chatStream c => if c = "" then none else some (.token c)
  | .toolStart n => some (.tool_start n)
  | .toolEnd n => some (.tool_end n)
  | .otherEvent => none

/-- How the underlying event iterator ends once its events are consumed:
normal exhaustion, a `GraphRecursionError`, or any other exception. -/
inductive LoopEnd where
  | exhausted
  | recursionError
  | internalFault
deriving DecidableEq, Repr

/-- The timeout error content, `f"Request timed out after {timeout} seconds."`. -/
def timeoutMsg (timeout : Nat) : String :=
  "Request timed out after " ++ toString timeout ++ " seconds."

/-- The `GraphRecursionError` error content. -/
def recursionMsg : String := "Agent exceeded maximum reasoning steps. Try a simpler prompt."

/-- The generic internal error content. -/
def internalMsg : String := "An internal error occurred."

/-- `event_generator` of `run_mission`: events are tagged with their
arrival time (seconds since the request started) and `endTime` is when the
iterator would be exhausted.  `asyncio.timeout` raises at the first
suspension point at or past the deadline, so an event arriving at
`t ≥ timeout` (or exhaustion at `endTime ≥ timeout`) is never forwarded:
the stream ends with the single timeout `error` frame.  On normal
exhaustion before the deadline the stream ends with the single `done`
frame (a recursion error or other exception ends it with the matching
`error` frame instead). -/
def event_generator (timeout : Nat) : List (ℚ × AgentEvent) → ℚ → LoopEnd → List Frame
  | [], endTime, fin =>
      if (timeout : ℚ) ≤ endTime then [.error (timeoutMsg timeout)]
      else
        match fin with
        | .exhausted => [.done]
        | .recursionError => [.error recursionMsg]
        | .internalFault => [.error internalMsg]
  | (t, e) :: rest, endTime, fin =>
      if (timeout : ℚ) ≤ t then [.error (timeoutMsg timeout)]
      else (frameOf e).toList ++ event_generator timeout rest endTime fin

/-- Whether a frame is an `error` frame. -/
def isErrorFrame : Frame → Bool
  | .error _ => true
  | _ => false

/-- Whether a frame is a `token`, `tool_start` or `tool_end` frame. -/
def isDataFrame : Frame → Bool
  | .token _ => true
  | .tool_start _ => true
  | .tool_end _ => true
  | _ => false

/-- Frames produced from events are data frames, never `error` or `done`. -/
lemma frameOf_shape (e : AgentEvent) (f : Frame) (h : frameOf e = some f) :
    isDataFrame f = true ∧ isErrorFrame f = false ∧ f ≠ Frame.done := by
  cases e with
  | chatStream c =>
      rw [frameOf] at h
      split_ifs at h
      obtain rfl : Frame.token c = f := by injection h
      exact ⟨rfl, rfl, by simp⟩
  | toolStart n =>
      obtain rfl : Frame.tool_start n = f := by injection h
      exact ⟨rfl, rfl, by simp⟩
  | toolEnd n =>
      obtain rfl : Frame.tool_end n = f := by injection h
      exact ⟨rfl, rfl, by simp⟩
  | otherEvent => simp [frameOf] at h

/-- The timeout behavior: whenever the sequence is not exhausted by the
deadline, the output ends in exactly one timeout error frame and every
data frame comes from a pre-deadline event. -/
lemma event_generator_timeout_case (timeout : Nat) (events : List (ℚ × AgentEvent))
    (endTime : ℚ)
    (h : (∃ te ∈ events, (timeout : ℚ) ≤ te.1) ∨ (timeout : ℚ) ≤ endTime) :
    (event_generator timeout events endTime .exhausted).countP isErrorFrame = 1 ∧
    (event_generator timeout events endTime .exhausted).getLast?
        = some (.error (timeoutMsg timeout)) ∧
    Frame.done ∉ event_generator timeout events endTime .exhausted ∧
    ∀ f ∈ event_generator timeout events endTime .exhausted, isDataFrame f = true →
      ∃ te ∈ events, te.1 < (timeout : ℚ) ∧ frameOf te.2 = some f := by
  induction events with
  | nil =>
      have hend : (timeout : ℚ) ≤ endTime := by
        rcases h with ⟨te, hte, _⟩ | h
        · simp at hte
        · exact h
      rw [event_generator, if_pos hend]
      refine ⟨rfl, rfl, by simp, ?_⟩
      intro f hf hdata
      simp at hf
      subst hf
      simp [isDataFrame] at hdata
  | cons te rest ih =>
      obtain ⟨t, e⟩ := te
      rw [event_generator]
      by_cases hlate : (timeout : ℚ) ≤ t
      · rw [if_pos hlate]
        refine ⟨rfl, rfl, by simp, ?_⟩
        intro f hf hdata
        simp at hf
        subst hf
        simp [isDataFrame] at hdata
      · rw [if_neg hlate]
        have hrest : (∃ te ∈ rest, (timeout : ℚ) ≤ te.1) ∨ (timeout : ℚ) ≤ endTime := by
          rcases h with ⟨te', hte', hle⟩ | h
          · rcases List.mem_cons.mp hte' with rfl | hmem
            · exact absurd hle hlate
            · exact Or.inl ⟨te', hmem, hle⟩
          · exact Or.inr h
        obtain ⟨ihc, ihl, ihd, ihf⟩ := ih hrest
        have hne : event_generator timeout rest endTime .exhausted ≠ [] := by
          intro hnil
          rw [hnil] at ihl
          simp at ihl
        refine ⟨?_, ?_, ?_, ?_⟩
        · rw [List.countP_append, ihc]
          have hz : (frameOf e).toList.countP isErrorFrame = 0 := by
            cases hfe : frameOf e with
            | none => rfl
            | some f => simp [(frameOf_shape e f hfe).2.1]
          rw [hz]
        · rw [List.getLast?_append_of_ne_nil _ hne]
          exact ihl
        · intro hmem
          rcases List.mem_append.mp hmem with hmem | hmem
          · cases hfe : frameOf e with
            | none => rw [hfe] at hmem; simp at hmem
            | some f =>
                rw [hfe] at hmem
                simp at hmem
                exact (frameOf_shape e f hfe).2.2 hmem.symm
          · exact ihd hmem
        · intro f hf hdata
          rcases List.mem_append.mp hf with hf | hf
          · cases hfe : frameOf e with
            | none => rw [hfe] at hf; simp at hf
            | some f' =>
                rw [hfe] at hf
                simp at hf
                subst hf
                exact ⟨(t, e), by simp, lt_of_not_le hlate, hfe⟩
          · obtain ⟨te', hte', hlt, hfr⟩ := ihf f hf hdata
            exact ⟨te', List.mem_cons_of_mem _ hte', hlt, hfr⟩

/-- The exhaustion behavior: all events before the deadline and exhaustion
before the deadline forward every frame and end with the single `done`. -/
lemma event_generator_exhausted_case (timeout : Nat) (events : List (ℚ × AgentEvent))
    (endTime : ℚ)
    (h : ∀ te ∈ events, te.1 < (timeout : ℚ)) (hend : endTime < timeout) :
    event_generator timeout events endTime .exhausted
      = events.filterMap (fun te => frameOf te.2) ++ [.done] := by
  induction events with
  | nil =>
      rw [event_generator, if_neg (not_le.mpr hend)]
      rfl
  | cons te rest ih =>
      obtain ⟨t, e⟩ := te
      rw [event_generator, if_neg (not_le.mpr (h (t, e) (by simp)))]
      rw [ih (fun te' hte' => h te' (by simp [hte']))]
      rw [List.filterMap_cons]
      cases frameOf e <;> simp

/-- C6: if the event sequence is not exhausted when the deadline elapses,
the stream terminates with exactly one error frame (the timeout message,
as the last frame), no `done` frame, and every `token`/`tool_start`/
`tool_end` frame comes from an event that arrived before the deadline; on
normal exhaustion before the deadline every frame is forwarded and the
stream terminates with exactly one terminal `done` frame and no error. -/
theorem c6_stream_deadline (timeout : Nat) (events : List (ℚ × AgentEvent)) (endTime : ℚ) :
    (((∃ te ∈ events, (timeout : ℚ) ≤ te.1) ∨ (timeout : ℚ) ≤ endTime) →
      (event_generator timeout events endTime .exhausted).countP isErrorFrame = 1 ∧
      (event_generator timeout events endTime .exhausted).getLast?
          = some (.error (timeoutMsg timeout)) ∧
      Frame.done ∉ event_generator timeout events endTime .exhausted ∧
      ∀ f ∈ event_generator timeout events endTime .exhausted, isDataFrame f = true →
        ∃ te ∈ events, te.1 < (timeout : ℚ) ∧ frameOf te.2 = some f) ∧
    ((∀ te ∈ events, te.1 < (timeout : ℚ)) → endTime < timeout →
      event_generator timeout events endTime .exhausted
          = events.filterMap (fun te => frameOf te.2) ++ [.done] ∧
      (event_generator timeout events endTime .exhausted).countP
          (fun f => f == Frame.done) = 1 ∧
      ∀ f ∈ event_generator timeout events endTime .exhausted, isErrorFrame f = false) := by
  refine ⟨event_generator_timeout_case timeout events endTime, ?_⟩
  intro h hend
  have heq := event_generator_exhausted_case timeout events endTime h hend
  refine ⟨heq, ?_, ?_⟩
  · rw [heq, List.countP_append]
    have hz : (events.filterMap (fun te => frameOf te.2)).countP
        (fun f => f == Frame.done) = 0 := by
      rw [List.countP_eq_zero]
      intro f hf
      obtain ⟨te, _, hfe⟩ := List.mem_filterMap.mp hf
      simpa using (frameOf_shape te.2 f hfe).2.2
    rw [hz]
    rfl
  · intro f hf
    rw [heq] at hf
    rcases List.mem_append.mp hf with hf | hf
    · obtain ⟨te, _, hfe⟩ := List.mem_filterMap.mp hf
      exact (frameOf_shape te.2 f hfe).2.1
    · simp at hf
      subst hf
      rfl

/-- Witness for C6: with a 120-second deadline, an event arriving at 130
triggers the timeout branch — one terminal timeout error frame, no `done`,
all data frames from pre-deadline events. -/
theorem c6_witness :
    (event_generator 120 [(0, AgentEvent.toolStart "scrape"), (5, AgentEvent.chatStream "hi"),
        (130, AgentEvent.chatStream "late")] 140 .exhausted).countP isErrorFrame = 1 ∧
    (event_generator 120 [(0, AgentEvent.toolStart "scrape"), (5, AgentEvent.chatStream "hi"),
        (130, AgentEvent.chatStream "late")] 140 .exhausted).getLast?
        = some (.error (timeoutMsg 120)) ∧
    Frame.done ∉ event_generator 120 [(0, AgentEvent.toolStart "scrape"),
        (5, AgentEvent.chatStream "hi"), (130, AgentEvent.chatStream "late")] 140 .exhausted ∧
    ∀ f ∈ event_generator 120 [(0, AgentEvent.toolStart "scrape"),
        (5, AgentEvent.chatStream "hi"), (130, AgentEvent.chatStream "late")] 140 .exhausted,
      isDataFrame f = true →
      ∃ te ∈ [((0 : ℚ), AgentEvent.toolStart "scrape"), (5, AgentEvent.chatStream "hi"),
          (130, AgentEvent.chatStream "late")], te.1 < (120 : ℚ) ∧ frameOf te.2 = some f :=
  (c6_stream_deadline 120 [(0, AgentEvent.toolStart "scrape"), (5, AgentEvent.chatStream "hi"),
      (130, AgentEvent.chatStream "late")] 140).1
    (Or.inl ⟨(130, AgentEvent.chatStream "late"), by simp, by norm_num⟩)

/-! ## Browser tools (`app/browser_tools.py`) -/

/-- Whether the first list is a leading run of the second. -/
def charsStartWith : List Char → List Char → Bool
  | [], _ => true
  | _ :: _, [] => false
  | p :: ps, c :: cs => p == c && charsStartWith ps cs

/-- Occurrence of `pat` anywhere in `s` (Python `pat in s`). -/
def strContains (s pat : String) : Bool :=
  let rec go : List Char → Bool
    | [] => charsStartWith pat.toList []
    | c :: cs => charsStartWith pat.toList (c :: cs) || go cs
  go s.toList

/-- `_CONTEXT_DESTROYED`. -/
def CONTEXT_DESTROYED : String := "Execution context was destroyed"

/-- The seven browser tool calls with their arguments. -/
inductive BCall where
  | navigate (url : String)
  | click (selector : String)
  | getElements (selector : String)
  | extractText
  | extractLinks
  | currentPage
  | goBack
deriving DecidableEq, Repr

/-- How the playwright action inside a tool fails: a
`PlaywrightTimeoutError` (a subclass of `PlaywrightError`), another
`PlaywrightError`, or any other exception.  Each carries its `str(exc)`. -/
inductive BFail where
  | timeoutFail (msg : String)
  | pwFail (msg : String)
  | otherFail (msg : String)
deriving DecidableEq, Repr

/-- A tool's reply: the string returned to the reasoning loop, and whether
the handler called `manager.reset_page()`. -/
structure ToolReply where
  text : String
  didReset : Bool
deriving DecidableEq, Repr

/-- The reply of every context-destroyed branch. -/
def ctxResetReply : ToolReply :=
  ⟨"Browser context was destroyed and has been reset. Please navigate to the URL again.", true⟩

/-- The shared `except PlaywrightError` body: reset on a context-destroyed
message, otherwise report `prefixText ++ msg`. -/
def pwErrorReply (body : String) (msg : String) : ToolReply :=
  if strContains msg CONTEXT_DESTROYED then ctxResetReply
  else ⟨body ++ msg, false⟩

/-- The failure handling of each browser tool, clause by clause from the
source: `navigate_browser`, `click_element` and `previous_webpage` have a
dedicated `PlaywrightTimeoutError` clause mentioning the timeout budget,
`get_elements` one without the budget, while `extract_text`,
`extract_hyperlinks` and `current_webpage` have none (a timeout there is
caught by the `PlaywrightError` clause, timeouts being playwright errors);
every tool ends with a generic `except Exception` clause. -/
def browserToolFail (navTimeout actionTimeout : Nat) : BCall → BFail → ToolReply
  | .navigate url, .timeoutFail _ =>
      ⟨"Timed out navigating to " ++ url ++ " after " ++ toString navTimeout ++
       "ms. The page may be partially loaded — try extract_text to see what's available.", false⟩
  | .navigate url, .pwFail msg => pwErrorReply ("Browser error navigating to " ++ url ++ ": ") msg
  | .navigate url, .otherFail msg =>
      ⟨"Unexpected error navigating to " ++ url ++ ": " ++ msg, false⟩
  | .click sel, .timeoutFail _ =>
      ⟨"Timed out clicking '" ++ sel ++ "' after " ++ toString actionTimeout ++
       "ms. The element may not be visible or may not exist.", false⟩
  | .click sel, .pwFail msg => pwErrorReply ("Browser error clicking '" ++ sel ++ "': ") msg
  | .click sel, .otherFail msg =>
      ⟨"Unexpected error clicking '" ++ sel ++ "': " ++ msg, false⟩
  | .getElements sel, .timeoutFail _ =>
      ⟨"Timed out querying elements for '" ++ sel ++ "'.", false⟩
  | .getElements sel, .pwFail msg => pwErrorReply ("Browser error querying '" ++ sel ++ "': ") msg
  | .getElements sel, .otherFail msg =>
      ⟨"Unexpected error querying '" ++ sel ++ "': " ++ msg, false⟩
  | .extractText, .timeoutFail msg => pwErrorReply "Browser error extracting text: " msg
  | .extractText, .pwFail msg => pwErrorReply "Browser error extracting text: " msg
  | .extractText, .otherFail msg => ⟨"Unexpected error extracting text: " ++ msg, false⟩
  | .extractLinks, .timeoutFail msg => pwErrorReply "Browser error extracting hyperlinks: " msg
  | .extractLinks, .pwFail msg => pwErrorReply "Browser error extracting hyperlinks: " msg
  | .extractLinks, .otherFail msg => ⟨"Unexpected error extracting hyperlinks: " ++ msg, false⟩
  | .currentPage, .timeoutFail msg => pwErrorReply "Browser error getting current URL: " msg
  | .currentPage, .pwFail msg => pwErrorReply "Browser error getting current URL: " msg
  | .currentPage, .otherFail msg => ⟨"Unexpected error getting current URL: " ++ msg, false⟩
  | .goBack, .timeoutFail _ =>
      ⟨"Timed out navigating back after " ++ toString navTimeout ++ "ms.", false⟩
  | .goBack, .pwFail msg => pwErrorReply "Browser error navigating back: " msg
  | .goBack, .otherFail msg => ⟨"Unexpected error navigating back: " ++ msg, false⟩

/-! ## C7: browser tool failure classification -/

/-- Whether `pat` is a leading run of `s`. -/
def strStartsWith (s pat : String) : Bool := charsStartWith pat.toList s.toList

/-- A leading run survives appending on the right. -/
lemma charsStartWith_append (p : List Char) :
    ∀ (s t : List Char), charsStartWith p s = true → charsStartWith p (s ++ t) = true := by
  induction p with
  | nil => intro s t _; rfl
  | cons c cs ih =>
      intro s t h
      cases s with
      | nil => simp [charsStartWith] at h
      | cons d ds =>
          simp only [charsStartWith, Bool.and_eq_true] at h
          simp only [List.cons_append, charsStartWith, Bool.and_eq_true]
          exact ⟨h.1, ih ds t h.2⟩

/-- A prefix of `s` is a prefix of `s ++ t`. -/
lemma strStartsWith_append (s t pat : String) (h : strStartsWith s pat = true) :
    strStartsWith (s ++ t) pat = true := by
  unfold strStartsWith at h ⊢
  have : (s ++ t).toList = s.toList ++ t.toList := by
    cases s; cases t; rfl
  rw [this]
  exact charsStartWith_append _ _ _ h

/-- Claim C7's three failure buckets, as reply shapes: a timeout report,
the context-destroyed reset-and-retry reply, or a browser-error report. -/
def inThreeBuckets (r : ToolReply) : Prop :=
  strStartsWith r.text "Timed out" = true ∨ r = ctxResetReply ∨
  strStartsWith r.text "Browser error" = true

/-- The shared playwright-error handler lands in the context-destroyed or
browser-error bucket, and resets exactly in the former. -/
lemma pwErrorReply_cases (body msg : String)
    (hb : strStartsWith body "Browser error" = true) :
    (pwErrorReply body msg = ctxResetReply ∨
     strStartsWith (pwErrorReply body msg).text "Browser error" = true) ∧
    ((pwErrorReply body msg).didReset = true ↔ pwErrorReply body msg = ctxResetReply) := by
  unfold pwErrorReply
  split_ifs with h
  · exact ⟨Or.inl rfl, by simp [ctxResetReply]⟩
  · refine ⟨Or.inr (strStartsWith_append body msg _ hb), ?_⟩
    simp [ctxResetReply, ToolReply.mk.injEq]

/-- C7 (counterexample): a non-playwright exception in `navigate_browser`
is answered with an `Unexpected error …` reply that belongs to none of the
claim's three buckets — the code classifies failures into four buckets,
not three. -/
theorem c7_counterexample :
    ¬ inThreeBuckets
        (browserToolFail 60000 10000 (BCall.navigate "http://x") (BFail.otherFail "boom")) := by
  unfold inThreeBuckets
  decide

/-- C7 amended: every browser tool maps every failure to one of exactly
four reply shapes — a timeout report, the context-destroyed
reset-and-retry reply, a browser-error report, or an unexpected-error
report — so the handler is total and always returns a string (no raw
exception crosses the tool boundary); the session reset happens exactly on
the context-destroyed reply; and a playwright error whose message contains
the context-destroyed marker always produces that reset-and-retry reply. -/
theorem c7_failure_four_buckets (navTimeout actionTimeout : Nat) (call : BCall) (f : BFail) :
    (strStartsWith (browserToolFail navTimeout actionTimeout call f).text "Timed out" = true
     ∨ browserToolFail navTimeout actionTimeout call f = ctxResetReply
     ∨ strStartsWith (browserToolFail navTimeout actionTimeout call f).text
         "Browser error" = true
     ∨ strStartsWith (browserToolFail navTimeout actionTimeout call f).text
         "Unexpected error" = true)
    ∧ ((browserToolFail navTimeout actionTimeout call f).didReset = true
        ↔ browserToolFail navTimeout actionTimeout call f = ctxResetReply)
    ∧ (∀ msg, strContains msg CONTEXT_DESTROYED = true →
        browserToolFail navTimeout actionTimeout call (BFail.pwFail msg) = ctxResetReply) := by
  refine ⟨?_, ?_, ?_⟩
  · cases call <;> cases f <;> simp only [browserToolFail] <;>
      first
      | exact Or.inl (by
          repeat apply strStartsWith_append
          decide)
      | exact Or.inr ((pwErrorReply_cases _ _ (by
          repeat apply strStartsWith_append
          decide)).1.imp_right Or.inl)
      | exact Or.inr (Or.inr (Or.inr (by
          repeat apply strStartsWith_append
          decide)))
  · cases call <;> cases f <;> simp only [browserToolFail] <;>
      first
      | exact (pwErrorReply_cases _ _ (by
          repeat apply strStartsWith_append
          decide)).2
      | simp [ctxResetReply, ToolReply.mk.injEq]
  · intro msg hmsg
    cases call <;> simp [browserToolFail, pwErrorReply, hmsg]

/-- Witness for C7: a context-destroyed playwright error during a click is
answered with the reset-and-retry reply. -/
theorem c7_witness :
    (strStartsWith (browserToolFail 60000 10000 (BCall.click "#btn")
        (BFail.pwFail "Oops: Execution context was destroyed, alas")).text "Timed out" = true
     ∨ browserToolFail 60000 10000 (BCall.click "#btn")
        (BFail.pwFail "Oops: Execution context was destroyed, alas") = ctxResetReply
     ∨ strStartsWith (browserToolFail 60000 10000 (BCall.click "#btn")
        (BFail.pwFail "Oops: Execution context was destroyed, alas")).text
          "Browser error" = true
     ∨ strStartsWith (browserToolFail 60000 10000 (BCall.click "#btn")
        (BFail.pwFail "Oops: Execution context was destroyed, alas")).text
          "Unexpected error" = true)
    ∧ ((browserToolFail 60000 10000 (BCall.click "#btn")
        (BFail.pwFail "Oops: Execution context was destroyed, alas")).didReset = true
        ↔ browserToolFail 60000 10000 (BCall.click "#btn")
            (BFail.pwFail "Oops: Execution context was destroyed, alas") = ctxResetReply)
    ∧ (∀ msg, strContains msg CONTEXT_DESTROYED = true →
        browserToolFail 60000 10000 (BCall.click "#btn") (BFail.pwFail msg) = ctxResetReply) :=
  c7_failure_four_buckets 60000 10000 (BCall.click "#btn")
    (BFail.pwFail "Oops: Execution context was destroyed, alas")

/-! ## C8: `BrowserManager.stop()` teardown (`app/browser.py`) -/

/-- Which teardown resources exist and which of their close calls would
raise: the environment of one `stop()` call. -/
structure StopEnv where
  hasContext : Bool
  hasBrowser : Bool
  hasPlaywright : Bool
  contextCloseFails : Bool
  browserCloseFails : Bool
  playwrightStopFails : Bool
deriving DecidableEq, Repr

/-- What one `stop()` call did: which close calls were attempted, and
whether an exception propagated out of `stop()`. -/
structure StopResult where
  contextCloseAttempted : Bool
  browserCloseAttempted : Bool
  playwrightStopAttempted : Bool
  raised : Bool
deriving DecidableEq, Repr

/-- `BrowserManager.stop()`: the context close is wrapped in
`try/except Exception: pass`; the browser close and the playwright stop
are not, so a failure there propagates and skips the remaining steps. -/
def stop (e : StopEnv) : StopResult :=
  if e.hasBrowser && e.browserCloseFails then
    ⟨e.hasContext, true, false, true⟩
  else if e.hasPlaywright && e.playwrightStopFails then
    ⟨e.hasContext, e.hasBrowser, true, true⟩
  else
    ⟨e.hasContext, e.hasBrowser, e.hasPlaywright, false⟩

/-- C8 (counterexample): when closing the browser fails, `stop()` raises
and the playwright driver is never stopped — a close failure is not
tolerated on each step independently. -/
theorem c8_counterexample :
    ¬ ((stop ⟨true, true, true, false, true, false⟩).raised = false ∧
       (stop ⟨true, true, true, false, true, false⟩).playwrightStopAttempted = true) := by
  decide

/-- C8 amended: `stop()` tolerates a context-close failure (it attempts
every remaining step and does not raise because of it), but a browser
close failure or a playwright stop failure propagates out of `stop()`, and
a browser close failure prevents the playwright stop from being attempted. -/
theorem c8_stop_teardown (e : StopEnv) :
    (stop e).contextCloseAttempted = e.hasContext
    ∧ (stop e).browserCloseAttempted = e.hasBrowser
    ∧ (stop e).raised = (e.hasBrowser && e.browserCloseFails
        || e.hasPlaywright && e.playwrightStopFails)
    ∧ (stop e).playwrightStopAttempted
        = (e.hasPlaywright && !(e.hasBrowser && e.browserCloseFails))
    ∧ (stop { e with contextCloseFails := false } = stop e) := by
  obtain ⟨c, b, p, cf, bf, pf⟩ := e
  cases c <;> cases b <;> cases p <;> cases cf <;> cases bf <;> cases pf <;> decide

/-! ## JSON serialization (the slice of `json.dumps(..., indent=2)` used
by `page_info` and `scrape_json`) -/

mutual
/-- A JSON value as the code builds them. -/
inductive JVal where
  | null
  | str (s : String)
  | num (n : Nat)
  | obj (fields : JFields)
  | arr (items : JItems)
/-- Object fields in insertion order. -/
inductive JFields where
  | nil
  | cons (key : String) (val : JVal) (rest : JFields)
/-- Array items in order. -/
inductive JItems where
  | nil
  | cons (val : JVal) (rest : JItems)
end

/-- Build `JFields` from a list of key/value pairs. -/
def toJFields : List (String × JVal) → JFields
  | [] => .nil
  | (k, v) :: rest => .cons k v (toJFields rest)

/-- A lowercase hexadecimal digit. -/
def hexDigit (n : Nat) : Char :=
  if n < 10 then Char.ofNat (48 + n) else Char.ofNat (87 + n)

/-- A `\uXXXX` escape. -/
def uEscape (n : Nat) : String :=
  String.mk ['\\', 'u', hexDigit (n / 4096 % 16), hexDigit (n / 256 % 16),
             hexDigit (n / 16 % 16), hexDigit (n % 16)]

/-- Python `json.dumps` escaping of one character: quote, backslash and
control characters always escaped (named escapes for the common ones),
and with `ensure_ascii` every character outside printable ASCII as
`\uXXXX` (a surrogate pair beyond the BMP). -/
def jescChar (ascii : Bool) (c : Char) : String :=
  if c = '"' then "\\\""
  else if c = '\\' then "\\\\"
  else if c = '\n' then "\\n"
  else if c = '\r' then "\\r"
  else if c = '\t' then "\\t"
  else if c.toNat = 8 then "\\b"
  else if c.toNat = 12 then "\\f"
  else if c.toNat < 32 then uEscape c.toNat
  else if ascii && decide (126 < c.toNat) then
    if c.toNat < 65536 then uEscape c.toNat
    else uEscape (55296 + (c.toNat - 65536) / 1024) ++ uEscape (56320 + (c.toNat - 65536) % 1024)
  else String.singleton c

/-- Escape a character run. -/
def jescList (ascii : Bool) : List Char → String
  | [] => ""
  | c :: cs => jescChar ascii c ++ jescList ascii cs

/-- A JSON string literal. -/
def jquote (ascii : Bool) (s : String) : String := "\"" ++ jescList ascii s.toList ++ "\""

/-- An indentation run. -/
def spaces (n : Nat) : String := String.mk (List.replicate n ' ')

mutual
/-- `json.dumps(v, indent=2)` at nesting indentation `ind`. -/
def jdump (ascii : Bool) (ind : Nat) : JVal → String
  | .null => "null"
  | .str s => jquote ascii s
  | .num n => toString n
  | .obj .nil => "\x7b\x7d"
  | .obj fs => "\x7b\n" ++ String.intercalate ",\n" (jfields ascii (ind + 2) fs)
      ++ "\n" ++ spaces ind ++ "\x7d"
  | .arr .nil => "[]"
  | .arr items => "[\n" ++ String.intercalate ",\n" (jitems ascii (ind + 2) items)
      ++ "\n" ++ spaces ind ++ "]"
/-- One rendered line per object field. -/
def jfields (ascii : Bool) (ind : Nat) : JFields → List String
  | .nil => []
  | .cons k v rest =>
      (spaces ind ++ jquote ascii k ++ ": " ++ jdump ascii ind v) :: jfields ascii ind rest
/-- One rendered line per array item. -/
def jitems (ascii : Bool) (ind : Nat) : JItems → List String
  | .nil => []
  | .cons v rest => (spaces ind ++ jdump ascii ind v) :: jitems ascii ind rest
end

/-! ## C9: output truncation of the fetch-based tools -/

/-- The page metadata `page_info` extracts from the soup (title tag,
description meta, canonical link, `og:` properties, link/image/table
counts). -/
structure PageMeta where
  title : Option String
  description : Option String
  canonical : Option String
  og : List (String × String)
  links : Nat
  images : Nat
  tables : Nat

/-- A possibly-missing string as JSON. -/
def optStr : Option String → JVal
  | none => .null
  | some s => .str s

/-- The `og` dict, or `None` when empty (`og_tags or None`). -/
def ogJson (og : List (String × String)) : JVal :=
  if og.isEmpty then .null
  else .obj (toJFields (og.map (fun kv => (kv.1, JVal.str kv.2))))

/-- The `metadata` dict `page_info` builds. -/
def metaJson (p : PageMeta) : JVal :=
  .obj (toJFields
    [("title", optStr p.title),
     ("description", optStr p.description),
     ("canonical_url", optStr p.canonical),
     ("og", ogJson p.og),
     ("counts", .obj (toJFields
        [("links", .num p.links), ("images", .num p.images), ("tables", .num p.tables)]))])

/-- The success path of `page_info`: `json.dumps(metadata, indent=2)` —
returned with **no** truncation. -/
def page_info (p : PageMeta) : String := jdump true 0 (metaJson p)

/-- The success path of `scrape` after fetching: join the rendered
elements and truncate to the 10,000-character budget (`rendered` is the
selector-matched elements' extracted strings). -/
def scrape (selector : String) (rendered : List String) : String :=
  if rendered.isEmpty then
    "No elements found matching selector '" ++ selector ++ "'."
  else _truncate (String.intercalate "\n---\n" rendered)

/-- One markdown table row. -/
def mdRow (values : List String) : String :=
  "| " ++ String.intercalate " | " values ++ " |"

/-- The success path of `scrape_table` on the selected table's rows (cell
texts): markdown rows with a separator after the header, truncated. -/
def scrape_table (rows : List (List String)) : String :=
  match rows with
  | [] => "Table has no rows."
  | r0 :: rest =>
      _truncate (String.intercalate "\n"
        (mdRow r0 :: mdRow (r0.map (fun _ => "---")) :: rest.map mdRow))

/-- The success path of `scrape_json` on the structured-data result:
`json.dumps(result, indent=2, ensure_ascii=False)`, truncated. -/
def scrape_json (result : JVal) : String :=
  _truncate (jdump false 0 result)

/-- Python slicing takes at most `n` characters. -/
lemma pyTake_length (s : String) (n : Nat) : (pyTake s n).length = min n s.length := by
  rw [pyTake, String.length, String.length]
  exact List.length_take n s.data

/-- `_truncate` never returns more than the limit plus the marker. -/
lemma _truncate_length_le (s : String) (limit : Nat) :
    (_truncate s limit).length ≤ limit + (truncMarker limit).length := by
  unfold _truncate
  split_ifs with h
  · rw [String.length_append, pyTake_length]
    omega
  · omega

/-- The accumulator of `String.intercalate.go`, and every remaining piece,
is no longer than the result. -/
lemma intercalate_go_length_le (s : String) :
    ∀ (as : List String) (acc : String),
      acc.length ≤ (String.intercalate.go acc s as).length ∧
      ∀ x ∈ as, x.length ≤ (String.intercalate.go acc s as).length
  | [], acc => ⟨le_refl _, by simp⟩
  | a :: as, acc => by
      have step : ∀ y : String, y.length ≤ (acc ++ s ++ a).length →
          y.length ≤ (String.intercalate.go acc s (a :: as)).length := by
        intro y hy
        rw [String.intercalate.go]
        exact le_trans hy (intercalate_go_length_le s as (acc ++ s ++ a)).1
      refine ⟨?_, ?_⟩
      · exact step acc (by rw [String.length_append, String.length_append]; omega)
      · intro x hx
        rcases List.mem_cons.mp hx with rfl | hx
        · exact step x (by rw [String.length_append, String.length_append]; omega)
        · rw [String.intercalate.go]
          exact (intercalate_go_length_le s as (acc ++ s ++ a)).2 x hx

/-- Every joined piece is no longer than the joined string. -/
lemma intercalate_mem_length (sep x : String) (xs : List String) (hx : x ∈ xs) :
    x.length ≤ (String.intercalate sep xs).length := by
  cases xs with
  | nil => simp at hx
  | cons a as =>
      rw [String.intercalate]
      rcases List.mem_cons.mp hx with rfl | hx
      · exact (intercalate_go_length_le sep as x).1
      · exact (intercalate_go_length_le sep as a).2 x hx

/-- A 20,000-character description. -/
def bigDesc : String := String.mk (List.replicate 20000 'a')

/-- Escaping a run of `a`s keeps its length. -/
lemma jescList_length_replicate_a (n : Nat) :
    (jescList true (List.replicate n 'a')).length = n := by
  induction n with
  | zero => rfl
  | succ n ih =>
      rw [List.replicate_succ, jescList, String.length_append, ih]
      have h1 : (jescChar true 'a').length = 1 := by decide
      omega

/-- The JSON literal for `bigDesc` is 20,002 characters long. -/
lemma jquote_bigDesc_length : (jquote true bigDesc).length = 20002 := by
  rw [jquote, String.length_append, String.length_append]
  have h : bigDesc.toList = List.replicate 20000 'a' := rfl
  rw [h, jescList_length_replicate_a]
  decide

/-- The shape of `page_info`'s output for a page with only a description. -/
lemma page_info_desc_shape (d : String) :
    page_info ⟨none, some d, none, [], 0, 0, 0⟩
      = "\x7b\n" ++ String.intercalate ",\n"
          [spaces 2 ++ jquote true "title" ++ ": " ++ "null",
           spaces 2 ++ jquote true "description" ++ ": " ++ jquote true d,
           spaces 2 ++ jquote true "canonical_url" ++ ": " ++ "null",
           spaces 2 ++ jquote true "og" ++ ": " ++ "null",
           spaces 2 ++ jquote true "counts" ++ ": " ++ jdump true 2 (JVal.obj (toJFields
             [("links", JVal.num 0), ("images", JVal.num 0), ("tables", JVal.num 0)]))]
        ++ "\n" ++ spaces 0 ++ "\x7d" := rfl

/-- C9 (counterexample): `page_info` applies no truncation — on a page
whose description is 20,000 characters its success payload exceeds the
10,000-character budget plus the truncation marker. -/
theorem c9_counterexample :
    MAX_CHARS + (truncMarker MAX_CHARS).length
      < (page_info ⟨none, some bigDesc, none, [], 0, 0, 0⟩).length := by
  have hfield : (spaces 2 ++ jquote true "description" ++ ": " ++ jquote true bigDesc).length
      = 17 + 20002 := by
    rw [String.length_append, String.length_append, String.length_append,
      jquote_bigDesc_length]
    decide
  have hmem : (spaces 2 ++ jquote true "description" ++ ": " ++ jquote true bigDesc)
      ∈ [spaces 2 ++ jquote true "title" ++ ": " ++ "null",
         spaces 2 ++ jquote true "description" ++ ": " ++ jquote true bigDesc,
         spaces 2 ++ jquote true "canonical_url" ++ ": " ++ "null",
         spaces 2 ++ jquote true "og" ++ ": " ++ "null",
         spaces 2 ++ jquote true "counts" ++ ": " ++ jdump true 2 (JVal.obj (toJFields
           [("links", JVal.num 0), ("images", JVal.num 0), ("tables", JVal.num 0)]))] := by
    simp
  have hint := intercalate_mem_length ",\n" _ _ hmem
  rw [hfield] at hint
  rw [page_info_desc_shape, String.length_append, String.length_append,
    String.length_append, String.length_append]
  have hb : MAX_CHARS + (truncMarker MAX_CHARS).length < 17 + 20002 := by decide
  omega

/-- C9 amended: `scrape`, `scrape_table` and `scrape_json` truncate their
success payloads to the fixed 10,000-character budget plus the explicit
marker, and `crawl`'s total output to the distinct 20,000-character
budget; `_truncate` returns its input unchanged when within the limit and
appends the marker exactly when it truncates.  `page_info` is the
exception the counterexample exhibits: its JSON is returned untruncated. -/
theorem c9_truncation_budgets (selector : String) (rendered : List String)
    (rows : List (List String)) (j : JVal)
    (env : String → PageResult) (url : String) (mp : ℤ) (fuel : Nat) :
    (rendered ≠ [] →
      (scrape selector rendered).length ≤ MAX_CHARS + (truncMarker MAX_CHARS).length)
    ∧ (scrape_table rows).length ≤ MAX_CHARS + (truncMarker MAX_CHARS).length
    ∧ (scrape_json j).length ≤ MAX_CHARS + (truncMarker MAX_CHARS).length
    ∧ (crawl env url mp selector fuel).2.length ≤ 20000 + (truncMarker 20000).length
    ∧ (∀ (s : String) (limit : Nat), s.length ≤ limit → _truncate s limit = s)
    ∧ (∀ (s : String) (limit : Nat), limit < s.length →
        _truncate s limit = pyTake s limit ++ truncMarker limit) := by
  refine ⟨?_, ?_, ?_, ?_, ?_, ?_⟩
  · intro h
    cases rendered with
    | nil => exact absurd rfl h
    | cons a as =>
        rw [scrape]
        simp only [List.isEmpty_cons, Bool.false_eq_true, if_false]
        exact _truncate_length_le _ _
  · cases rows with
    | nil => rw [scrape_table]; decide
    | cons r0 rest => rw [scrape_table]; exact _truncate_length_le _ _
  · exact _truncate_length_le _ _
  · exact _truncate_length_le _ _
  · intro s limit h
    rw [_truncate, if_neg (not_lt.mpr h)]
  · intro s limit h
    rw [_truncate, if_pos h]

/-- Witness for C9: `scrape` on one `hello` element stays within the
budget bound. -/
theorem c9_witness :
    (scrape "p" ["hello"]).length ≤ MAX_CHARS + (truncMarker MAX_CHARS).length ∧
    (scrape_table [["a", "b"]]).length ≤ MAX_CHARS + (truncMarker MAX_CHARS).length :=
  ⟨(c9_truncation_budgets "p" ["hello"] [["a", "b"]] (JVal.str "x")
      (fun _ => PageResult.fail "e") "http://a.com/" 5 3).1 (by decide),
   (c9_truncation_budgets "p" ["hello"] [["a", "b"]] (JVal.str "x")
      (fun _ => PageResult.fail "e") "http://a.com/" 5 3).2.1⟩

end AgenticApi
